import Mathlib

/-
Verification of the Lineup Protection data processor
(`data_processor.py`, class `LineupProtectionProcessor`).

Shallow embedding conventions:
* A pandas DataFrame is a `List` of per-row structures; column order plays
  no role, row order is the frame's row order.
* A float cell that may be NaN is an `Option ℚ` (`none` = NaN/missing).
  Arithmetic on such cells propagates `none`, mirroring IEEE NaN
  propagation; `odiv` returns `none` for a zero divisor, modelling the
  non-finite float result (NaN for 0/0, ±inf otherwise) of the division.
* `pd.merge(..., how="left")` is `ljoin`: each left row is paired with
  every matching right row, in right-table order; a left row with no
  match is kept once with `none` in the pulled-through columns.
* `groupby` results are lists keyed by the deduplicated key column; the
  group order produced here may differ from pandas' sorted order, which
  is immaterial because every consumer joins on the key.
-/

/-- Addition on nullable cells: NaN-propagating (`df[a] + df[b]`). -/
def oadd : Option ℚ → Option ℚ → Option ℚ
  | some a, some b => some (a + b)
  | _, _ => none

/-- Subtraction on nullable cells: NaN-propagating. -/
def osub : Option ℚ → Option ℚ → Option ℚ
  | some a, some b => some (a - b)
  | _, _ => none

/-- Multiplication on nullable cells: NaN-propagating. -/
def omul : Option ℚ → Option ℚ → Option ℚ
  | some a, some b => some (a * b)
  | _, _ => none

/-- Division on nullable cells: NaN-propagating, and a zero divisor gives
`none` (the float result is non-finite: NaN when the numerator is 0 as in
the PA = 0 path, ±inf otherwise). -/
def odiv : Option ℚ → Option ℚ → Option ℚ
  | some a, some b => if b = 0 then none else some (a / b)
  | _, _ => none

/-- `Series.fillna(d)`: replace a NaN cell by the default `d` (itself a
cell, so a NaN default leaves the cell NaN, as in pandas). -/
def fillna (v d : Option ℚ) : Option ℚ :=
  match v with
  | some x => some x
  | none => d

/-- The non-null values of a nullable column. -/
def somes (xs : List (Option ℚ)) : List ℚ :=
  xs.filterMap id

/-- `Series.mean()`: mean over non-null cells, NaN when there are none. -/
def nmean (xs : List (Option ℚ)) : Option ℚ :=
  if (somes xs).length = 0 then none
  else some ((somes xs).sum / ((somes xs).length : ℚ))

/-- `left.merge(right, how="left")` keyed by the predicate `m`: every left
row is paired with each matching right row (in right order); an unmatched
left row survives once, with `none` for the right side. -/
def ljoin {α β γ : Type} (mk : α → Option β → γ) (m : α → β → Bool)
    (left : List α) (right : List β) : List γ :=
  left.flatMap fun a =>
    let ms := right.filter (m a)
    if ms.isEmpty then [mk a none] else ms.map fun b => mk a (some b)

/-- One Statcast pitch row: the columns `calculate_pitch_quality_by_batter`
and `calculate_pitcher_quality_faced` read. Plate coordinates and
strike-zone bounds are nullable. -/
structure Pitch where
  batter : ℕ
  pitcher : ℕ
  game_pk : ℕ
  plate_x : Option ℚ
  plate_z : Option ℚ
  sz_top : Option ℚ
  sz_bot : Option ℚ
deriving DecidableEq, Repr

/-- `classify_pitch_location`: geometric zone label for one pitch. -/
def classify_pitch_location (plate_x plate_z : ℚ)
    (sz_top : ℚ := 3.5) (sz_bot : ℚ := 1.5) : String :=
  let zone_left : ℚ := -0.83
  let zone_right : ℚ := 0.83
  let heart_left : ℚ := -0.33
  let heart_right : ℚ := 0.33
  let heart_top : ℚ := sz_top - 0.5
  let heart_bot : ℚ := sz_bot + 0.5
  if heart_left ≤ plate_x ∧ plate_x ≤ heart_right ∧
     heart_bot ≤ plate_z ∧ plate_z ≤ heart_top then "heart"
  else if zone_left ≤ plate_x ∧ plate_x ≤ zone_right ∧
          sz_bot ≤ plate_z ∧ plate_z ≤ sz_top then "zone"
  else
    let chase_buffer : ℚ := 0.5
    if zone_left - chase_buffer ≤ plate_x ∧ plate_x ≤ zone_right + chase_buffer ∧
       sz_bot - chase_buffer ≤ plate_z ∧ plate_z ≤ sz_top + chase_buffer then "chase"
    else "waste"

/-- Spec-side description (claim C2) of the heart rectangle: `plate_x`
within ±0.33 and `plate_z` within the zone shrunk by 0.5 on each vertical
edge. -/
def heartRect (x z t b : ℚ) : Prop :=
  -0.33 ≤ x ∧ x ≤ 0.33 ∧ b + 0.5 ≤ z ∧ z ≤ t - 0.5

/-- Spec-side description of the full strike-zone rectangle: `plate_x`
within ±0.83 and `plate_z` between the batter's bounds. -/
def zoneRect (x z t b : ℚ) : Prop :=
  -0.83 ≤ x ∧ x ≤ 0.83 ∧ b ≤ z ∧ z ≤ t

/-- Spec-side description of the chase rectangle: the strike-zone
rectangle expanded by 0.5 on all sides. -/
def chaseRect (x z t b : ℚ) : Prop :=
  -0.83 - 0.5 ≤ x ∧ x ≤ 0.83 + 0.5 ∧ b - 0.5 ≤ z ∧ z ≤ t + 0.5

/-- One row of the per-batter pitch-quality aggregate. -/
structure PitchQualRow where
  batter : ℕ
  heart_pct : ℚ
  total_pitches : ℕ
  zone_pct : ℚ
  chase_pct : ℚ
  waste_pct : ℚ
deriving DecidableEq, Repr

/-- The per-pitch classification frame of
`calculate_pitch_quality_by_batter`: rows with a null plate coordinate are
dropped (`dropna(subset=["plate_x", "plate_z"])`), null `sz_top`/`sz_bot`
default to 3.5/1.5 (`fillna`), and each surviving pitch is paired with its
zone label. -/
def zonedOf (statcast : List Pitch) : List (ℕ × String) :=
  (statcast.filter fun p => p.plate_x.isSome && p.plate_z.isSome).map fun p =>
    (p.batter, classify_pitch_location (p.plate_x.getD 0) (p.plate_z.getD 0)
      (p.sz_top.getD 3.5) (p.sz_bot.getD 1.5))

/-- One group of the per-batter aggregation: `heart_pct` is the fraction
classified heart, `zone_pct` the fraction classified heart or zone,
`chase_pct` and `waste_pct` the fractions of those labels,
`total_pitches` the group size (the count of non-null `plate_x`, which on
the dropna'd frame is every row of the group). -/
def pitchQualRowOf (zoned : List (ℕ × String)) (b : ℕ) : PitchQualRow :=
  let zs := (zoned.filter fun q => q.fst == b).map Prod.snd
  { batter := b
    heart_pct := ((zs.count ("heart") : ℚ)) / (zs.length : ℚ)
    total_pitches := zs.length
    zone_pct := ((zs.countP fun z => z == "heart" || z == "zone" : ℚ)) / (zs.length : ℚ)
    chase_pct := ((zs.count ("chase") : ℚ)) / (zs.length : ℚ)
    waste_pct := ((zs.count ("waste") : ℚ)) / (zs.length : ℚ) }

/-- `calculate_pitch_quality_by_batter`: classify the valid pitches, then
aggregate them per batter (one group per distinct batter key). -/
def calculate_pitch_quality_by_batter (statcast : List Pitch) : List PitchQualRow :=
  (((zonedOf statcast).map Prod.fst).dedup).map (pitchQualRowOf (zonedOf statcast))

/-- The Statcast frame together with its column index. `DataFrame.dropna`
with a `subset` raises a `KeyError` naming the subset labels missing from
the column index before touching any row, so
`calculate_pitch_quality_by_batter` validates the labels it uses before
aggregating. `rows` is the parsed payload of the frame. -/
structure RawStatcast where
  columns : List String
  rows : List Pitch
deriving DecidableEq, Repr

/-- The entry point of `calculate_pitch_quality_by_batter` as executed on a
raw frame: `df.dropna(subset=["plate_x", "plate_z"])` first checks both
labels against the column index and raises `KeyError` listing the missing
ones (modelled as `Except.error` carrying that list); only with both
columns present does the per-batter aggregation run. Unresolved join keys,
by contrast, never produce an error anywhere in the pipeline. -/
def calculate_pitch_quality_checked (t : RawStatcast) :
    Except (List String) (List PitchQualRow) :=
  let missing := (["plate_x", "plate_z"] : List String).filter
    fun c => !(t.columns.contains c)
  if missing.isEmpty then Except.ok (calculate_pitch_quality_by_batter t.rows)
  else Except.error missing

/-- One FanGraphs pitching row: the columns
`calculate_pitcher_quality_faced` reads. -/
structure PitchingRow where
  mlbamid : ℕ
  fip : ℚ
  xfip : ℚ
  era : ℚ
deriving DecidableEq, Repr

/-- One row of the deduplicated (batter, pitcher, game) frame after the
left merge with the pitcher-quality table and the two fillna steps:
`fip_minus` is `(FIP / league FIP) * 100` filled with 100, `fip` is the
pitcher's FIP filled with the league mean (still NaN when the pitching
table is empty). -/
structure TripleRow where
  batter : ℕ
  pitcher : ℕ
  fip_minus : ℚ
  fip : Option ℚ
deriving DecidableEq, Repr

/-- One row of the per-batter opposing-pitcher aggregate. -/
structure PitcherOppRow where
  batter : ℕ
  avg_pitcher_fip_minus : ℚ
  avg_pitcher_fip : Option ℚ
  unique_pitchers_faced : ℕ
deriving DecidableEq, Repr

/-- The merged triple frame of `calculate_pitcher_quality_faced`: distinct
(batter, pitcher, game) triples from Statcast, left-merged with the
pitcher-quality table (FIP-minus is `FIP / league-mean FIP * 100`),
unresolved pitchers filled with FIP-minus 100 and the league FIP. -/
def tripleRowsOf (pitching : List PitchingRow) (statcast : List Pitch) :
    List TripleRow :=
  let lg_fip := nmean (pitching.map fun p => some p.fip)
  ljoin
    (fun t q =>
      { batter := t.1
        pitcher := t.2.1
        fip_minus :=
          ((omul (odiv (q.map fun qq => qq.fip) lg_fip) (some 100)).getD 100 : ℚ)
        fip :=
          match q with
          | some qq => some qq.fip
          | none => lg_fip } : (ℕ × ℕ × ℕ) → Option PitchingRow → TripleRow)
    (fun t q => q.mlbamid == t.2.1)
    ((statcast.map fun p => (p.batter, p.pitcher, p.game_pk)).dedup) pitching

/-- One group of the per-batter opposing-pitcher aggregation: mean
FIP-minus, mean FIP (NaN-skipping) and the count of distinct pitchers. -/
def pitcherOppRowOf (merged : List TripleRow) (b : ℕ) : PitcherOppRow :=
  let ms := merged.filter fun m => m.batter == b
  { batter := b
    avg_pitcher_fip_minus := (ms.map TripleRow.fip_minus).sum / (ms.length : ℚ)
    avg_pitcher_fip := nmean (ms.map TripleRow.fip)
    unique_pitchers_faced := ((ms.map TripleRow.pitcher).dedup).length }

/-- `calculate_pitcher_quality_faced`: group the merged triple frame by
batter (one group per distinct batter key). -/
def calculate_pitcher_quality_faced (pitching : List PitchingRow)
    (statcast : List Pitch) : List PitcherOppRow :=
  (((tripleRowsOf pitching statcast).map TripleRow.batter).dedup).map
    (pitcherOppRowOf (tripleRowsOf pitching statcast))

/-- One FanGraphs batting row: the columns the pipeline reads. -/
structure BattingRow where
  mlbamid : ℕ
  name : String
  team : String
  pa : ℚ
  woba : ℚ
deriving DecidableEq, Repr

/-- One row of the season protection summary (external collaborator
output); the five columns `merge_protection_scores` pulls through. -/
structure ProtRow where
  batter_id : ℕ
  avg_protection_score : ℚ
  games : ℚ
  total_pa : ℚ
  avg_batting_order : ℚ
deriving DecidableEq, Repr

/-- A batting row after the protection merge; `prot = none` is the NaN row
produced for a batter absent from the protection summary. -/
structure Row1 where
  base : BattingRow
  prot : Option ProtRow
deriving DecidableEq, Repr

/-- `merge_protection_scores`: left merge of batting stats with the
protection summary on `MLBAMID = batter_id`. -/
def merge_protection_scores (batting : List BattingRow) (prot : List ProtRow) :
    List Row1 :=
  ljoin (fun b p => ⟨b, p⟩) (fun b p => p.batter_id == b.mlbamid) batting prot

/-- One park-factor row: team full name and the 5-year basic factor. -/
structure ParkRow where
  team : String
  park_factor : ℚ
deriving DecidableEq, Repr

/-- The fixed 30-entry full-name-to-abbreviation dictionary of
`calculate_park_adjusted_stats`. -/
def team_map_list : List (String × String) :=
  [("Angels", "LAA"), ("Astros", "HOU"), ("Athletics", "OAK"),
   ("Blue Jays", "TOR"), ("Braves", "ATL"), ("Brewers", "MIL"),
   ("Cardinals", "STL"), ("Cubs", "CHC"), ("Diamondbacks", "ARI"),
   ("Dodgers", "LAD"), ("Giants", "SFG"), ("Guardians", "CLE"),
   ("Mariners", "SEA"), ("Marlins", "MIA"), ("Mets", "NYM"),
   ("Nationals", "WSN"), ("Orioles", "BAL"), ("Padres", "SDP"),
   ("Phillies", "PHI"), ("Pirates", "PIT"), ("Rangers", "TEX"),
   ("Rays", "TBR"), ("Red Sox", "BOS"), ("Reds", "CIN"),
   ("Rockies", "COL"), ("Royals", "KCR"), ("Tigers", "DET"),
   ("Twins", "MIN"), ("White Sox", "CHW"), ("Yankees", "NYY")]

/-- `Series.map(team_map)`: `none` for a full name outside the dictionary
(pandas leaves NaN, which matches no merge key). -/
def team_map (t : String) : Option String :=
  team_map_list.lookup t

/-- A row after `calculate_park_adjusted_stats`: `park_factor` is the
merged factor filled with 100, `wOBA_park_adj = wOBA * (100 / park_factor)`
(`none` for the non-finite result of a zero factor). -/
structure Row2 where
  r1 : Row1
  park_factor : ℚ
  wOBA_park_adj : Option ℚ
deriving DecidableEq, Repr

/-- `calculate_park_adjusted_stats`: left merge on the batting `Team`
abbreviation against the mapped park-factor table, fill unmatched factors
with 100, then compute the park-neutral wOBA. -/
def calculate_park_adjusted_stats (park_factors : List ParkRow)
    (rows : List Row1) : List Row2 :=
  ljoin
    (fun r pm =>
      let pfv : ℚ :=
        match pm with
        | some p => p.park_factor
        | none => 100
      { r1 := r
        park_factor := pfv
        wOBA_park_adj :=
          if pfv = 0 then none else some (r.base.woba * (100 / pfv)) })
    (fun r p => team_map p.team == some r.base.team) rows park_factors

/-- A row after the pitch-quality merge (`pq = none` when the batter has no
Statcast pitches with valid coordinates). -/
structure Row3 where
  r2 : Row2
  pq : Option PitchQualRow
deriving DecidableEq, Repr

/-- A fully merged row, the frame handed to `calculate_true_talent`
(`po = none` when the batter is absent from the Statcast data). The
duplicate `batter` key columns dropped at the end of `build_full_dataset`
have no counterpart here because fields are typed, not name-suffixed. -/
structure Row4 where
  r3 : Row3
  po : Option PitcherOppRow
deriving DecidableEq, Repr

/-- Column accessor. -/
def Row4.mlbamid (r : Row4) : ℕ := r.r3.r2.r1.base.mlbamid

/-- Column accessor. -/
def Row4.name (r : Row4) : String := r.r3.r2.r1.base.name

/-- Column accessor. -/
def Row4.team (r : Row4) : String := r.r3.r2.r1.base.team

/-- Column accessor. -/
def Row4.pa (r : Row4) : ℚ := r.r3.r2.r1.base.pa

/-- Column accessor. -/
def Row4.woba (r : Row4) : ℚ := r.r3.r2.r1.base.woba

/-- Column accessor (NaN when the batter missed the protection merge). -/
def Row4.avg_protection_score (r : Row4) : Option ℚ :=
  r.r3.r2.r1.prot.map fun p => p.avg_protection_score

/-- Column accessor. -/
def Row4.park_factor (r : Row4) : ℚ := r.r3.r2.park_factor

/-- Column accessor. -/
def Row4.wOBA_park_adj (r : Row4) : Option ℚ := r.r3.r2.wOBA_park_adj

/-- Column accessor (NaN when the batter missed the pitch-quality merge). -/
def Row4.heart_pct (r : Row4) : Option ℚ :=
  r.r3.pq.map fun q => q.heart_pct

/-- Column accessor (NaN when the batter missed the pitcher merge). -/
def Row4.avg_pitcher_fip_minus (r : Row4) : Option ℚ :=
  r.po.map fun q => q.avg_pitcher_fip_minus

/-- The 2024 wOBA linear weights, as returned by `get_2024_woba_weights`
(the estimator reads only `wOBA_scale` and `R_PA`). -/
structure Weights where
  wBB : ℚ
  wHBP : ℚ
  w1B : ℚ
  w2B : ℚ
  w3B : ℚ
  wHR : ℚ
  wOBA_scale : ℚ
  lg_wOBA : ℚ
  R_PA : ℚ
  R_W : ℚ
deriving DecidableEq, Repr

/-- One output row of `calculate_true_talent`: the carried-through signal
columns plus the four adjustment terms and the derived estimates. -/
structure TalentRow where
  mlbamid : ℕ
  name : String
  team : String
  pa : ℚ
  woba : ℚ
  avg_protection_score : Option ℚ
  park_factor : ℚ
  wOBA_park_adj : Option ℚ
  heart_pct : Option ℚ
  avg_pitcher_fip_minus : Option ℚ
  protection_adj : Option ℚ
  park_adj : Option ℚ
  pitcher_adj : Option ℚ
  pitch_quality_adj : Option ℚ
  wOBA_true_talent : Option ℚ
  wRAA_true_talent : Option ℚ
  wRC_plus_true_talent : Option ℚ
  total_context_adj : Option ℚ
deriving DecidableEq, Repr

/-- League-mean wOBA of `calculate_true_talent`: the mean observed wOBA
over the batter population handed to the estimator. -/
def lg_woba_of (rows : List Row4) : Option ℚ :=
  nmean (rows.map fun r => some r.woba)

/-- League-mean protection score (NaN-skipping column mean). -/
def lg_protection_of (rows : List Row4) : Option ℚ :=
  nmean (rows.map Row4.avg_protection_score)

/-- League-mean heart-pitch fraction (NaN-skipping column mean;
`heart_pct` is always a column of the merged frame built by
`build_full_dataset`, so the guarded constant-0.15 branch for a frame
without the column is never taken there). -/
def lg_heart_pct_of (rows : List Row4) : Option ℚ :=
  nmean (rows.map Row4.heart_pct)

/-- One output row of `calculate_true_talent` over the population `rows`:
the four adjustments, the shrinkage-regressed true talent and the
wRC+-style estimates follow the source line for line. -/
def talentRowOf (w : Weights) (rows : List Row4) (r : Row4) : TalentRow :=
  let lg_woba := lg_woba_of rows
  let lg_protection := lg_protection_of rows
  let lg_heart_pct := lg_heart_pct_of rows
  let protection_adj :=
      omul (osub (fillna r.avg_protection_score lg_protection) lg_protection)
        (some 0.15)
  let park_adj := osub (some r.woba) r.wOBA_park_adj
  let pitcher_adj : Option ℚ :=
    some ((100 - (r.avg_pitcher_fip_minus.getD 100)) * 0.001)
  let pitch_quality_adj :=
    omul (osub (fillna r.heart_pct lg_heart_pct) lg_heart_pct) (some 0.15)
  let tt0 :=
    osub (oadd (osub (osub (some r.woba) protection_adj) park_adj)
      pitcher_adj) pitch_quality_adj
  let wOBA_true_talent :=
    oadd (omul tt0 (some (1 - 0.10))) (omul lg_woba (some 0.10))
  let wRAA_true_talent :=
    omul (odiv (osub wOBA_true_talent lg_woba) (some w.wOBA_scale))
      (some r.pa)
  let wRC_plus_true_talent :=
    omul (odiv (oadd (odiv wRAA_true_talent (some r.pa)) (some w.R_PA))
      (some w.R_PA)) (some 100)
  let total_context_adj :=
    oadd (osub (oadd protection_adj park_adj) pitcher_adj) pitch_quality_adj
  { mlbamid := r.mlbamid
    name := r.name
    team := r.team
    pa := r.pa
    woba := r.woba
    avg_protection_score := r.avg_protection_score
    park_factor := r.park_factor
    wOBA_park_adj := r.wOBA_park_adj
    heart_pct := r.heart_pct
    avg_pitcher_fip_minus := r.avg_pitcher_fip_minus
    protection_adj := protection_adj
    park_adj := park_adj
    pitcher_adj := pitcher_adj
    pitch_quality_adj := pitch_quality_adj
    wOBA_true_talent := wOBA_true_talent
    wRAA_true_talent := wRAA_true_talent
    wRC_plus_true_talent := wRC_plus_true_talent
    total_context_adj := total_context_adj }

/-- `calculate_true_talent`: league references computed once over the
input frame, then one output row per input row. -/
def calculate_true_talent (w : Weights) (rows : List Row4) : List TalentRow :=
  rows.map (talentRowOf w rows)

/-- `build_full_dataset`: protection merge, park adjustment, pitch-quality
merge, pitcher-quality merge (all left joins anchored on the batting
frame), then the true-talent estimator. -/
def build_full_dataset (w : Weights) (batting : List BattingRow)
    (prot : List ProtRow) (park_factors : List ParkRow)
    (statcast : List Pitch) (pitching : List PitchingRow) : List TalentRow :=
  let df1 := merge_protection_scores batting prot
  let df2 := calculate_park_adjusted_stats park_factors df1
  let pitch_quality := calculate_pitch_quality_by_batter statcast
  let df3 := ljoin (fun r pq => (⟨r, pq⟩ : Row3))
    (fun r pq => pq.batter == r.r1.base.mlbamid) df2 pitch_quality
  let pitcher_opp := calculate_pitcher_quality_faced pitching statcast
  let df4 := ljoin (fun r po => (⟨r, po⟩ : Row4))
    (fun r po => po.batter == r.r2.r1.base.mlbamid) df3 pitcher_opp
  calculate_true_talent w df4

/-- Sample linear weights used by concrete witness runs. -/
def sampleWeights : Weights :=
  ⟨69/100, 72/100, 89/100, 127/100, 162/100, 2, 124/100, 31/100, 117/1000, 10⟩

/-- Sample fully merged row used by concrete witness runs: a batter with a
protection score, a neutral park, pitch-quality and pitcher aggregates. -/
def sampleRow : Row4 :=
  { r3 :=
    { r2 :=
      { r1 :=
        { base := { mlbamid := 10, name := "A", team := "NYY",
                    pa := 600, woba := 3/10 }
          prot := some { batter_id := 10, avg_protection_score := 1/2,
                         games := 100, total_pa := 600, avg_batting_order := 3 } }
        park_factor := 100
        wOBA_park_adj := some (3/10) }
      pq := some { batter := 10, heart_pct := 1/5, total_pitches := 50,
                   zone_pct := 2/5, chase_pct := 2/5, waste_pct := 1/5 } }
    po := some { batter := 10, avg_pitcher_fip_minus := 90,
                 avg_pitcher_fip := some 4, unique_pitchers_faced := 20 } }

/-- Sample merged row with no protection match and PA = 0, used by
concrete witness runs. -/
def sampleRowMissing : Row4 :=
  { r3 :=
    { r2 :=
      { r1 :=
        { base := { mlbamid := 11, name := "B", team := "BOS",
                    pa := 0, woba := 2/10 }
          prot := none }
        park_factor := 100
        wOBA_park_adj := some (2/10) }
      pq := none }
    po := none }

/-! Helper lemmas. -/

lemma classify_spec (x z t b : ℚ) :
    (classify_pitch_location x z t b = "heart" ↔ heartRect x z t b) ∧
    (classify_pitch_location x z t b = "zone" ↔
      ¬heartRect x z t b ∧ zoneRect x z t b) ∧
    (classify_pitch_location x z t b = "chase" ↔
      ¬heartRect x z t b ∧ ¬zoneRect x z t b ∧ chaseRect x z t b) ∧
    (classify_pitch_location x z t b = "waste" ↔
      ¬heartRect x z t b ∧ ¬zoneRect x z t b ∧ ¬chaseRect x z t b) := by
  unfold classify_pitch_location heartRect zoneRect chaseRect
  dsimp only
  split_ifs with h1 h2 h3 <;> simp_all

lemma classify_mem_four (x z t b : ℚ) :
    classify_pitch_location x z t b = "heart" ∨
    classify_pitch_location x z t b = "zone" ∨
    classify_pitch_location x z t b = "chase" ∨
    classify_pitch_location x z t b = "waste" := by
  obtain ⟨hh, hz, hc, hw⟩ := classify_spec x z t b
  by_cases h1 : heartRect x z t b
  · exact Or.inl (hh.mpr h1)
  by_cases h2 : zoneRect x z t b
  · exact Or.inr (Or.inl (hz.mpr ⟨h1, h2⟩))
  by_cases h3 : chaseRect x z t b
  · exact Or.inr (Or.inr (Or.inl (hc.mpr ⟨h1, h2, h3⟩)))
  · exact Or.inr (Or.inr (Or.inr (hw.mpr ⟨h1, h2, h3⟩)))

lemma heartRect_subset_zoneRect {x z t b : ℚ} (h : heartRect x z t b) :
    zoneRect x z t b := by
  obtain ⟨h1, h2, h3, h4⟩ := h
  exact ⟨by linarith, by linarith, by linarith, by linarith⟩

/-- Claim C2: for every pitch the classifier returns exactly one of
heart/zone/chase/waste, checked in that precedence order against the
spec's rectangles (heart: `plate_x` in [−0.33, 0.33] and `plate_z` in
[sz_bot+0.5, sz_top−0.5]; zone: `plate_x` in [−0.83, 0.83] and `plate_z`
in [sz_bot, sz_top]; chase: the zone rectangle expanded by 0.5 on all
sides); every heart pitch also lies in the full strike-zone rectangle;
and the pitch at plate_x = 0, plate_z = 2.5 with bounds 3.5/1.5 is
classified heart. -/
theorem C2_classifier_exactly_one_of_four :
    (∀ x z t b : ℚ,
      (classify_pitch_location x z t b = "heart" ∨
       classify_pitch_location x z t b = "zone" ∨
       classify_pitch_location x z t b = "chase" ∨
       classify_pitch_location x z t b = "waste") ∧
      (classify_pitch_location x z t b = "heart" ↔ heartRect x z t b) ∧
      (classify_pitch_location x z t b = "zone" ↔
        ¬heartRect x z t b ∧ zoneRect x z t b) ∧
      (classify_pitch_location x z t b = "chase" ↔
        ¬heartRect x z t b ∧ ¬zoneRect x z t b ∧ chaseRect x z t b) ∧
      (classify_pitch_location x z t b = "waste" ↔
        ¬heartRect x z t b ∧ ¬zoneRect x z t b ∧ ¬chaseRect x z t b) ∧
      (classify_pitch_location x z t b = "heart" → zoneRect x z t b)) ∧
    classify_pitch_location 0 2.5 3.5 1.5 = "heart" := by
  constructor
  · intro x z t b
    obtain ⟨hh, hz, hc, hw⟩ := classify_spec x z t b
    exact ⟨classify_mem_four x z t b, hh, hz, hc, hw,
      fun h => heartRect_subset_zoneRect (hh.mp h)⟩
  · norm_num [classify_pitch_location]

/-- Claim C2 witness: the heart-implies-zone implication discharged at the
concrete heart pitch of the spec's scenario. -/
theorem C2_classifier_witness : zoneRect 0 2.5 3.5 1.5 := by
  have h := C2_classifier_exactly_one_of_four
  exact ((h.1 0 2.5 3.5 1.5).2.2.2.2.2) h.2

/-- Claim C10: when the strike zone is shallower than 1 unit the shrunken
heart rectangle is empty, so no pitch is classified heart. -/
theorem C10_thin_zone_never_heart (x z t b : ℚ) (h : t - b < 1) :
    classify_pitch_location x z t b ≠ "heart" := by
  intro hc
  obtain ⟨_, _, h3, h4⟩ := (classify_spec x z t b).1.mp hc
  linarith

/-- Claim C10 witness: a dead-center pitch in a 0.5-unit-tall zone is not
classified heart (it is classified zone). -/
theorem C10_thin_zone_witness :
    ((2 : ℚ) - 3/2 < 1) ∧ classify_pitch_location 0 1.75 2 1.5 ≠ "heart" ∧
    classify_pitch_location 0 1.75 2 1.5 = "zone" := by
  refine ⟨by norm_num, C10_thin_zone_never_heart 0 1.75 2 1.5 (by norm_num), ?_⟩
  norm_num [classify_pitch_location]

lemma countP_labels_partition (zs : List String)
    (h : ∀ z ∈ zs, z = "heart" ∨ z = "zone" ∨ z = "chase" ∨ z = "waste") :
    (zs.countP fun z => z == "heart" || z == "zone") + zs.count ("chase") +
      zs.count ("waste") = zs.length := by
  induction zs with
  | nil => simp
  | cons a l ih =>
    have ha := h a (by simp)
    have hl : ∀ z ∈ l, z = "heart" ∨ z = "zone" ∨ z = "chase" ∨ z = "waste" :=
      fun z hz => h z (by simp [hz])
    have ih2 := ih hl
    rcases ha with h1 | h1 | h1 | h1 <;> subst h1 <;>
      simp [List.countP_cons, List.count_cons] <;> omega

lemma zonedOf_snd_label {statcast : List Pitch} {q : ℕ × String}
    (hq : q ∈ zonedOf statcast) :
    q.snd = "heart" ∨ q.snd = "zone" ∨ q.snd = "chase" ∨ q.snd = "waste" := by
  simp only [zonedOf, List.mem_map] at hq
  obtain ⟨p, _, rfl⟩ := hq
  exact classify_mem_four _ _ _ _

lemma group_length_pos {α β : Type} [BEq β] [LawfulBEq β] [DecidableEq β]
    {l : List (β × α)} {b : β} (hb : b ∈ (l.map Prod.fst).dedup) :
    0 < (l.filter fun q => q.fst == b).length := by
  rw [List.mem_dedup] at hb
  obtain ⟨q, hq, rfl⟩ := List.mem_map.mp hb
  have hmem : q ∈ l.filter fun q' => q'.fst == q.fst :=
    List.mem_filter.mpr ⟨hq, by simp⟩
  exact List.length_pos.mpr fun hnil => by simp [hnil] at hmem

lemma mem_cpq {statcast : List Pitch} {r : PitchQualRow}
    (h : r ∈ calculate_pitch_quality_by_batter statcast) :
    ∃ b, b ∈ ((zonedOf statcast).map Prod.fst).dedup ∧
      r = pitchQualRowOf (zonedOf statcast) b := by
  unfold calculate_pitch_quality_by_batter at h
  obtain ⟨b, hb, hr⟩ := List.mem_map.mp h
  exact ⟨b, hb, hr.symm⟩

/-- Claim C6 (amended): for every batter row of the pitch-quality
aggregate, `heart_pct + (zone_pct − heart_pct) + chase_pct + waste_pct = 1`
— equivalently `zone_pct + chase_pct + waste_pct = 1` — because `zone_pct`
already includes the heart pitches; pitches with missing coordinates are
excluded from the denominator before aggregation. -/
theorem C6_percentages_partition_amended (statcast : List Pitch)
    (r : PitchQualRow) (h : r ∈ calculate_pitch_quality_by_batter statcast) :
    r.heart_pct + (r.zone_pct - r.heart_pct) + r.chase_pct + r.waste_pct = 1 := by
  obtain ⟨b, hb, rfl⟩ := mem_cpq h
  have hlabel : ∀ z ∈ ((zonedOf statcast).filter fun q => q.fst == b).map Prod.snd,
      z = "heart" ∨ z = "zone" ∨ z = "chase" ∨ z = "waste" := by
    intro z hz
    obtain ⟨q, hq, rfl⟩ := List.mem_map.mp hz
    exact zonedOf_snd_label (List.mem_filter.mp hq).1
  have hsum := countP_labels_partition _ hlabel
  have hpos : 0 < ((zonedOf statcast).filter fun q => q.fst == b).length :=
    group_length_pos hb
  simp only [pitchQualRowOf]
  set zs := ((zonedOf statcast).filter fun q => q.fst == b).map Prod.snd with hzs
  have h0 : 0 < zs.length := by simpa [hzs] using hpos
  have hn : ((zs.length : ℚ)) ≠ 0 := Nat.cast_ne_zero.mpr h0.ne'
  have harith :
      ((zs.count ("heart") : ℚ)) / (zs.length : ℚ) +
        (((zs.countP fun z => z == "heart" || z == "zone" : ℕ) : ℚ) / (zs.length : ℚ) -
          ((zs.count ("heart") : ℚ)) / (zs.length : ℚ)) +
        ((zs.count ("chase") : ℚ)) / (zs.length : ℚ) +
        ((zs.count ("waste") : ℚ)) / (zs.length : ℚ) =
      (((zs.countP fun z => z == "heart" || z == "zone" : ℕ) : ℚ) +
        ((zs.count ("chase") : ℕ) : ℚ) + ((zs.count ("waste") : ℕ) : ℚ)) /
        (zs.length : ℚ) := by
    ring
  rw [harith]
  rw [show (((zs.countP fun z => z == "heart" || z == "zone" : ℕ) : ℚ) +
      ((zs.count ("chase") : ℕ) : ℚ) + ((zs.count ("waste") : ℕ) : ℚ)) =
      ((zs.length : ℕ) : ℚ) by exact_mod_cast congrArg Nat.cast hsum]
  exact div_self hn

/-- Claim C6 witness: the single-pitch table whose pitch is classified
zone; its aggregate row satisfies the amended partition identity. -/
theorem C6_percentages_partition_witness :
    ∃ r, r ∈ calculate_pitch_quality_by_batter
        [⟨5, 6, 7, some 0.5, some 2.5, some 3.5, some 1.5⟩] ∧
      r.heart_pct + (r.zone_pct - r.heart_pct) + r.chase_pct + r.waste_pct = 1 := by
  have hmem : (⟨5, 0, 1, 1, 0, 0⟩ : PitchQualRow) ∈
      calculate_pitch_quality_by_batter
        [⟨5, 6, 7, some 0.5, some 2.5, some 3.5, some 1.5⟩] := by
    have hcomp : calculate_pitch_quality_by_batter
        [⟨5, 6, 7, some 0.5, some 2.5, some 3.5, some 1.5⟩] =
        [⟨5, 0, 1, 1, 0, 0⟩] := by
      norm_num [calculate_pitch_quality_by_batter, zonedOf, pitchQualRowOf,
        classify_pitch_location, List.dedup]
      decide
    simp [hcomp]
  exact ⟨_, hmem, C6_percentages_partition_amended _ _ hmem⟩

/-- Claim C6 counterexample: a batter whose single valid pitch is
classified heart has `heart_pct = zone_pct = 1`, so the four fields as
written sum to 2, refuting `heart_pct + zone_pct + chase_pct + waste_pct
= 1`. -/
theorem C6_sum_counterexample :
    ∃ r, r ∈ calculate_pitch_quality_by_batter
        [⟨1, 2, 3, some 0, some 2.5, some 3.5, some 1.5⟩] ∧
      r.heart_pct + r.zone_pct + r.chase_pct + r.waste_pct ≠ 1 := by
  have hcomp : calculate_pitch_quality_by_batter
      [⟨1, 2, 3, some 0, some 2.5, some 3.5, some 1.5⟩] =
      [⟨1, 1, 1, 1, 0, 0⟩] := by
    norm_num [calculate_pitch_quality_by_batter, zonedOf, pitchQualRowOf,
      classify_pitch_location, List.dedup]
    decide
  refine ⟨⟨1, 1, 1, 1, 0, 0⟩, by simp [hcomp], by norm_num⟩

lemma somes_map_some {α : Type} (f : α → ℚ) (l : List α) :
    somes (l.map fun r => some (f r)) = l.map f := by
  induction l with
  | nil => simp [somes]
  | cons a t ih => simp_all [somes]

lemma nmean_map_some {α : Type} (f : α → ℚ) (l : List α) (h : l ≠ []) :
    nmean (l.map fun r => some (f r)) = some ((l.map f).sum / (l.length : ℚ)) := by
  simp [nmean, somes_map_some, List.length_eq_zero, h]

lemma nmean_isSome_of_mem {xs : List (Option ℚ)} {v : ℚ} (h : some v ∈ xs) :
    ∃ u, nmean xs = some u := by
  have hv : v ∈ somes xs := by
    simp only [somes, List.mem_filterMap]
    exact ⟨some v, h, rfl⟩
  have hlen : (somes xs).length ≠ 0 := by
    intro h0
    rw [List.length_eq_zero] at h0
    simp [h0] at hv
  refine ⟨(somes xs).sum / ((somes xs).length : ℚ), ?_⟩
  unfold nmean
  rw [if_neg hlen]

lemma mem_ljoin {α β γ : Type} {mk : α → Option β → γ} {m : α → β → Bool}
    {left : List α} {right : List β} {c : γ} (h : c ∈ ljoin mk m left right) :
    ∃ a, a ∈ left ∧
      (c = mk a none ∨ ∃ b, b ∈ right ∧ m a b = true ∧ c = mk a (some b)) := by
  simp only [ljoin, List.mem_flatMap] at h
  obtain ⟨a, ha, hc⟩ := h
  refine ⟨a, ha, ?_⟩
  by_cases he : (right.filter (m a)).isEmpty
  · rw [if_pos he] at hc
    simp at hc
    exact Or.inl hc
  · rw [if_neg he] at hc
    obtain ⟨b, hb, hcb⟩ := List.mem_map.mp hc
    exact Or.inr ⟨b, (List.mem_filter.mp hb).1, (List.mem_filter.mp hb).2, hcb.symm⟩

lemma ljoin_mem_none {α β γ : Type} {mk : α → Option β → γ} {m : α → β → Bool}
    {left : List α} {right : List β} {a : α} (ha : a ∈ left)
    (hf : right.filter (m a) = []) : mk a none ∈ ljoin mk m left right := by
  simp only [ljoin, List.mem_flatMap]
  exact ⟨a, ha, by simp [hf]⟩

lemma mem_ctt {w : Weights} {rows : List Row4} {r' : TalentRow}
    (h : r' ∈ calculate_true_talent w rows) :
    ∃ r, r ∈ rows ∧ r' = talentRowOf w rows r := by
  obtain ⟨r, hr, heq⟩ := List.mem_map.mp h
  exact ⟨r, hr, heq.symm⟩

lemma lg_woba_of_eq {rows : List Row4} (h : rows ≠ []) :
    lg_woba_of rows = some ((rows.map Row4.woba).sum / (rows.length : ℚ)) := by
  simpa [lg_woba_of] using nmean_map_some Row4.woba rows h

lemma talentRowOf_woba (w : Weights) (rows : List Row4) (r : Row4) :
    (talentRowOf w rows r).woba = r.woba := by
  simp [talentRowOf]

lemma talentRowOf_pa (w : Weights) (rows : List Row4) (r : Row4) :
    (talentRowOf w rows r).pa = r.pa := by
  simp [talentRowOf]

lemma talentRowOf_mlbamid (w : Weights) (rows : List Row4) (r : Row4) :
    (talentRowOf w rows r).mlbamid = r.mlbamid := by
  simp [talentRowOf]

lemma talentRowOf_name (w : Weights) (rows : List Row4) (r : Row4) :
    (talentRowOf w rows r).name = r.name := by
  simp [talentRowOf]

lemma talentRowOf_park_factor (w : Weights) (rows : List Row4) (r : Row4) :
    (talentRowOf w rows r).park_factor = r.park_factor := by
  simp [talentRowOf]

lemma talentRowOf_wOBA_park_adj (w : Weights) (rows : List Row4) (r : Row4) :
    (talentRowOf w rows r).wOBA_park_adj = r.wOBA_park_adj := by
  simp [talentRowOf]

lemma talentRowOf_avg_protection_score (w : Weights) (rows : List Row4) (r : Row4) :
    (talentRowOf w rows r).avg_protection_score = r.avg_protection_score := by
  simp [talentRowOf]

lemma talentRowOf_heart_pct (w : Weights) (rows : List Row4) (r : Row4) :
    (talentRowOf w rows r).heart_pct = r.heart_pct := by
  simp [talentRowOf]

lemma talentRowOf_avg_pitcher_fip_minus (w : Weights) (rows : List Row4) (r : Row4) :
    (talentRowOf w rows r).avg_pitcher_fip_minus = r.avg_pitcher_fip_minus := by
  simp [talentRowOf]

lemma talentRowOf_protection_adj (w : Weights) (rows : List Row4) (r : Row4) :
    (talentRowOf w rows r).protection_adj =
      omul (osub (fillna r.avg_protection_score (lg_protection_of rows))
        (lg_protection_of rows)) (some 0.15) := by
  simp [talentRowOf]

lemma talentRowOf_park_adj (w : Weights) (rows : List Row4) (r : Row4) :
    (talentRowOf w rows r).park_adj = osub (some r.woba) r.wOBA_park_adj := by
  simp [talentRowOf]

lemma talentRowOf_pitcher_adj (w : Weights) (rows : List Row4) (r : Row4) :
    (talentRowOf w rows r).pitcher_adj =
      some ((100 - (r.avg_pitcher_fip_minus.getD 100)) * 0.001) := by
  simp [talentRowOf]

lemma talentRowOf_pitch_quality_adj (w : Weights) (rows : List Row4) (r : Row4) :
    (talentRowOf w rows r).pitch_quality_adj =
      omul (osub (fillna r.heart_pct (lg_heart_pct_of rows))
        (lg_heart_pct_of rows)) (some 0.15) := by
  simp [talentRowOf]

lemma talentRowOf_wOBA_true_talent (w : Weights) (rows : List Row4) (r : Row4) :
    (talentRowOf w rows r).wOBA_true_talent =
      oadd
        (omul
          (osub
            (oadd
              (osub (osub (some r.woba) (talentRowOf w rows r).protection_adj)
                (talentRowOf w rows r).park_adj)
              (talentRowOf w rows r).pitcher_adj)
            (talentRowOf w rows r).pitch_quality_adj)
          (some (1 - 0.10)))
        (omul (lg_woba_of rows) (some 0.10)) := by
  simp [talentRowOf]

lemma talentRowOf_wRAA_true_talent (w : Weights) (rows : List Row4) (r : Row4) :
    (talentRowOf w rows r).wRAA_true_talent =
      omul (odiv (osub (talentRowOf w rows r).wOBA_true_talent (lg_woba_of rows))
        (some w.wOBA_scale)) (some r.pa) := by
  simp [talentRowOf]

lemma talentRowOf_wRC_plus_true_talent (w : Weights) (rows : List Row4) (r : Row4) :
    (talentRowOf w rows r).wRC_plus_true_talent =
      omul (odiv (oadd (odiv (talentRowOf w rows r).wRAA_true_talent (some r.pa))
        (some w.R_PA)) (some w.R_PA)) (some 100) := by
  simp [talentRowOf]

lemma ctt_formula {w : Weights} {rows : List Row4} {r' : TalentRow}
    (h : r' ∈ calculate_true_talent w rows) {p k q hq : ℚ}
    (hp : r'.protection_adj = some p) (hk : r'.park_adj = some k)
    (hqv : r'.pitcher_adj = some q) (hh : r'.pitch_quality_adj = some hq) :
    r'.wOBA_true_talent =
      some ((r'.woba - p - k + q - hq) * 0.90 +
        ((rows.map Row4.woba).sum / (rows.length : ℚ)) * 0.10) := by
  obtain ⟨r, hr, rfl⟩ := mem_ctt h
  have hne : rows ≠ [] := List.ne_nil_of_mem hr
  rw [talentRowOf_wOBA_true_talent, hp, hk, hqv, hh, lg_woba_of_eq hne,
    talentRowOf_woba]
  simp only [oadd, osub, omul, Option.some.injEq]
  ring

/-- Claim C1: for every batter row processed by the estimator,
`wOBA_true_talent` equals (observed wOBA − protection_adj − park_adj +
pitcher_adj − pitch_quality_adj) × 0.90 + league-mean wOBA × 0.10, where
the league mean is the mean observed wOBA over the batter population; in
particular, when the four adjustment terms are all 0, it equals observed
wOBA × 0.9 + league-mean wOBA × 0.1. -/
theorem C1_true_talent_shrinkage {w : Weights} {rows : List Row4}
    {r' : TalentRow} (h : r' ∈ calculate_true_talent w rows) {p k q hq : ℚ}
    (hp : r'.protection_adj = some p) (hk : r'.park_adj = some k)
    (hqv : r'.pitcher_adj = some q) (hh : r'.pitch_quality_adj = some hq) :
    r'.wOBA_true_talent =
      some ((r'.woba - p - k + q - hq) * 0.90 +
        ((rows.map Row4.woba).sum / (rows.length : ℚ)) * 0.10) ∧
    (p = 0 → k = 0 → q = 0 → hq = 0 →
      r'.wOBA_true_talent =
        some (r'.woba * 0.9 +
          ((rows.map Row4.woba).sum / (rows.length : ℚ)) * 0.1)) := by
  have h1 := ctt_formula h hp hk hqv hh
  refine ⟨h1, fun hp0 hk0 hq0 hh0 => ?_⟩
  subst hp0
  subst hk0
  subst hq0
  subst hh0
  rw [h1]
  norm_num

/-- Claim C1 witness: a one-batter population with protection, park and
pitch-quality adjustments 0 and pitcher adjustment 0.01; the estimate is
(0.3 + 0.01) × 0.9 + 0.3 × 0.1 = 0.309. -/
theorem C1_true_talent_shrinkage_witness :
    talentRowOf sampleWeights [sampleRow] sampleRow ∈
      calculate_true_talent sampleWeights [sampleRow] ∧
    (talentRowOf sampleWeights [sampleRow] sampleRow).wOBA_true_talent =
      some (309/1000) := by
  have hmem : talentRowOf sampleWeights [sampleRow] sampleRow ∈
      calculate_true_talent sampleWeights [sampleRow] := by
    simp [calculate_true_talent]
  have hsc : Row4.avg_protection_score sampleRow = some (1/2) := by
    simp [Row4.avg_protection_score, sampleRow]
  have hlgp : lg_protection_of [sampleRow] = some (1/2) := by
    norm_num [lg_protection_of, nmean, somes, hsc, List.filterMap_cons,
      List.filterMap_nil]
  have hp : (talentRowOf sampleWeights [sampleRow] sampleRow).protection_adj =
      some 0 := by
    rw [talentRowOf_protection_adj, hsc, hlgp]
    norm_num [fillna, osub, omul]
  have hk : (talentRowOf sampleWeights [sampleRow] sampleRow).park_adj =
      some 0 := by
    rw [talentRowOf_park_adj]
    norm_num [sampleRow, Row4.woba, Row4.wOBA_park_adj, osub]
  have hqv : (talentRowOf sampleWeights [sampleRow] sampleRow).pitcher_adj =
      some (1/100) := by
    rw [talentRowOf_pitcher_adj]
    norm_num [sampleRow, Row4.avg_pitcher_fip_minus]
  have hhp : Row4.heart_pct sampleRow = some (1/5) := by
    simp [Row4.heart_pct, sampleRow]
  have hlgh : lg_heart_pct_of [sampleRow] = some (1/5) := by
    norm_num [lg_heart_pct_of, nmean, somes, hhp, List.filterMap_cons,
      List.filterMap_nil]
  have hh : (talentRowOf sampleWeights [sampleRow] sampleRow).pitch_quality_adj =
      some 0 := by
    rw [talentRowOf_pitch_quality_adj, hhp, hlgh]
    norm_num [fillna, osub, omul]
  have h1 := (C1_true_talent_shrinkage hmem hp hk hqv hh).1
  refine ⟨hmem, ?_⟩
  rw [h1, talentRowOf_woba]
  norm_num [sampleRow, Row4.woba]

/-- Claim C5: for every batter row, pitcher_adj = (100 −
avg_pitcher_fip_minus-or-100) × 0.001; a batter with avg_pitcher_fip_minus
< 100 has pitcher_adj > 0; and the term enters the wOBA_true_talent
formula with a plus sign. -/
theorem C5_pitcher_adjustment {w : Weights} {rows : List Row4}
    {r' : TalentRow} (h : r' ∈ calculate_true_talent w rows) :
    r'.pitcher_adj =
      some ((100 - (r'.avg_pitcher_fip_minus.getD 100)) * 0.001) ∧
    (∀ v : ℚ, r'.avg_pitcher_fip_minus = some v → v < 100 →
      ∃ q : ℚ, r'.pitcher_adj = some q ∧ 0 < q) ∧
    (∀ p k q hq : ℚ, r'.protection_adj = some p → r'.park_adj = some k →
      r'.pitcher_adj = some q → r'.pitch_quality_adj = some hq →
      r'.wOBA_true_talent =
        some ((r'.woba - p - k + q - hq) * 0.90 +
          ((rows.map Row4.woba).sum / (rows.length : ℚ)) * 0.10)) := by
  refine ⟨?_, ?_, ?_⟩
  · obtain ⟨r, hr, rfl⟩ := mem_ctt h
    rw [talentRowOf_pitcher_adj, talentRowOf_avg_pitcher_fip_minus]
  · intro v hv hlt
    obtain ⟨r, hr, rfl⟩ := mem_ctt h
    rw [talentRowOf_avg_pitcher_fip_minus] at hv
    refine ⟨(100 - v) * 0.001, ?_, by norm_num; linarith⟩
    rw [talentRowOf_pitcher_adj, hv]
    norm_num
  · intro p k q hq hp hk hqv hh
    exact ctt_formula h hp hk hqv hh

/-- Claim C5 witness: the sample batter faced FIP-minus 90 pitching and
receives pitcher_adj = 0.01 > 0. -/
theorem C5_pitcher_adjustment_witness :
    (talentRowOf sampleWeights [sampleRow] sampleRow).pitcher_adj =
      some (1/100) ∧ (0 : ℚ) < 1/100 := by
  have hmem : talentRowOf sampleWeights [sampleRow] sampleRow ∈
      calculate_true_talent sampleWeights [sampleRow] := by
    simp [calculate_true_talent]
  have h1 := (C5_pitcher_adjustment hmem).1
  have hfla : (talentRowOf sampleWeights [sampleRow] sampleRow).avg_pitcher_fip_minus =
      some 90 := by
    rw [talentRowOf_avg_pitcher_fip_minus]
    simp [Row4.avg_pitcher_fip_minus, sampleRow]
  rw [hfla] at h1
  norm_num at h1
  exact ⟨h1, by norm_num⟩

/-- Claim C7: a batter absent from the protection summary is left with a
null protection score by the merger (no defaulting there), and the
estimator assigns it protection_adj = 0 — the score is defaulted to the
league-mean protection score during estimation, so its difference from
the league mean is 0 (the league mean exists whenever some batter in the
population has a score). -/
theorem C7_missing_protection_zero_adj :
    (∀ (batting : List BattingRow) (prot : List ProtRow) (b : BattingRow),
      b ∈ batting → (∀ pr ∈ prot, pr.batter_id ≠ b.mlbamid) →
      (⟨b, none⟩ : Row1) ∈ merge_protection_scores batting prot) ∧
    (∀ (w : Weights) (rows : List Row4) (r' : TalentRow),
      r' ∈ calculate_true_talent w rows →
      r'.avg_protection_score = none →
      (∃ x, x ∈ rows ∧ (Row4.avg_protection_score x).isSome) →
      r'.protection_adj = some 0) := by
  constructor
  · intro batting prot b hb hno
    have hf : prot.filter (fun p => p.batter_id == b.mlbamid) = [] := by
      rw [List.filter_eq_nil_iff]
      intro p hp
      simpa using hno p hp
    exact ljoin_mem_none hb hf
  · intro w rows r' h hnone hex
    obtain ⟨r, hr, rfl⟩ := mem_ctt h
    rw [talentRowOf_avg_protection_score] at hnone
    obtain ⟨x, hx, hxs⟩ := hex
    obtain ⟨v, hv⟩ := Option.isSome_iff_exists.mp hxs
    obtain ⟨u, hu⟩ := @nmean_isSome_of_mem
      (rows.map Row4.avg_protection_score) v
      (List.mem_map.mpr ⟨x, hx, hv⟩)
    rw [talentRowOf_protection_adj, hnone]
    simp only [lg_protection_of]
    rw [hu]
    simp [fillna, osub, omul]

/-- Claim C7 witness: batter 11 is missing from a one-row protection
summary keyed to batter 10, survives the merge with a null score, and in
a two-batter population (the other batter carrying a score) receives
protection_adj = 0. -/
theorem C7_missing_protection_witness :
    (⟨⟨11, "B", "BOS", 0, 2/10⟩, none⟩ : Row1) ∈
      merge_protection_scores [⟨11, "B", "BOS", 0, 2/10⟩]
        [⟨10, 1/2, 100, 600, 3⟩] ∧
    (talentRowOf sampleWeights [sampleRowMissing, sampleRow]
      sampleRowMissing).protection_adj = some 0 := by
  constructor
  · refine C7_missing_protection_zero_adj.1 _ _ _ (by simp) ?_
    intro pr hpr
    simp at hpr
    subst hpr
    decide
  · refine C7_missing_protection_zero_adj.2 sampleWeights
      [sampleRowMissing, sampleRow] _ (by simp [calculate_true_talent]) ?_ ?_
    · rw [talentRowOf_avg_protection_score]
      simp [Row4.avg_protection_score, sampleRowMissing]
    · refine ⟨sampleRow, by simp, ?_⟩
      simp [Row4.avg_protection_score, sampleRow]

/-- Claim C9: the estimator produces one output row per input row with no
division fault, and a row with PA = 0 has an undefined (null) wRC+, not
zero. -/
theorem C9_zero_pa_guard (w : Weights) (rows : List Row4) :
    (calculate_true_talent w rows).length = rows.length ∧
    ∀ r', r' ∈ calculate_true_talent w rows → r'.pa = 0 →
      r'.wRC_plus_true_talent = none := by
  refine ⟨by simp [calculate_true_talent], ?_⟩
  intro r' h hpa
  obtain ⟨r, hr, rfl⟩ := mem_ctt h
  rw [talentRowOf_pa] at hpa
  rw [talentRowOf_wRC_plus_true_talent, hpa]
  have hz : odiv (talentRowOf w rows r).wRAA_true_talent (some 0) = none := by
    cases (talentRowOf w rows r).wRAA_true_talent <;> simp [odiv]
  rw [hz]
  simp [oadd, odiv, omul]

/-- Claim C9 witness: the sample batter with PA = 0 gets a null wRC+. -/
theorem C9_zero_pa_witness :
    (talentRowOf sampleWeights [sampleRowMissing]
      sampleRowMissing).wRC_plus_true_talent = none := by
  refine (C9_zero_pa_guard sampleWeights [sampleRowMissing]).2 _
    (by simp [calculate_true_talent]) ?_
  rw [talentRowOf_pa]
  simp [Row4.pa, sampleRowMissing]

lemma cpas_wOBA_park_adj {pf : List ParkRow} {rows : List Row1} {r2 : Row2}
    (h : r2 ∈ calculate_park_adjusted_stats pf rows) :
    r2.wOBA_park_adj = (if r2.park_factor = 0 then none
      else some (r2.r1.base.woba * (100 / r2.park_factor))) := by
  unfold calculate_park_adjusted_stats at h
  obtain ⟨a, _, hc⟩ := mem_ljoin h
  rcases hc with hc | ⟨p, _, _, hc⟩ <;> subst hc <;> simp

lemma cpas_park_factor_default {pf : List ParkRow} {rows : List Row1}
    {r2 : Row2} (h : r2 ∈ calculate_park_adjusted_stats pf rows)
    (hnm : ∀ p ∈ pf, team_map p.team ≠ some r2.r1.base.team) :
    r2.park_factor = 100 := by
  unfold calculate_park_adjusted_stats at h
  obtain ⟨a, _, hc⟩ := mem_ljoin h
  rcases hc with hc | ⟨p, hp, hm, hc⟩
  · subst hc; simp
  · subst hc
    simp only [beq_iff_eq] at hm
    exact absurd hm (by simpa using hnm p hp)

lemma build_mem_shape {w : Weights} {batting : List BattingRow}
    {prot : List ProtRow} {pf : List ParkRow} {statcast : List Pitch}
    {pitching : List PitchingRow} {r' : TalentRow}
    (h : r' ∈ build_full_dataset w batting prot pf statcast pitching) :
    ∃ rows r4, r4 ∈ rows ∧ r' = talentRowOf w rows r4 ∧
      r4.r3.r2 ∈ calculate_park_adjusted_stats pf
        (merge_protection_scores batting prot) := by
  unfold build_full_dataset at h
  obtain ⟨r4, hr4, rfl⟩ := mem_ctt h
  refine ⟨_, r4, hr4, rfl, ?_⟩
  obtain ⟨r3, hr3, hc4⟩ := mem_ljoin hr4
  have h43 : r4.r3 = r3 := by
    rcases hc4 with hc | ⟨b, _, _, hc⟩ <;> subst hc <;> rfl
  obtain ⟨r2, hr2, hc3⟩ := mem_ljoin hr3
  have h32 : r3.r2 = r2 := by
    rcases hc3 with hc | ⟨b, _, _, hc⟩ <;> subst hc <;> rfl
  rw [h43, h32]
  exact hr2

/-- Claim C4: `wOBA_park_adj` = observed wOBA × (100 / park_factor) (for a
nonzero factor), `park_adj` = observed wOBA − wOBA_park_adj, a batter
whose team resolves to no park-factor entry gets park_factor = 100, and
in the full pipeline park_factor = 100 forces park_adj = 0. -/
theorem C4_park_adjustment :
    (∀ (pf : List ParkRow) (rows : List Row1) (r2 : Row2),
      r2 ∈ calculate_park_adjusted_stats pf rows → r2.park_factor ≠ 0 →
      r2.wOBA_park_adj = some (r2.r1.base.woba * (100 / r2.park_factor))) ∧
    (∀ (w : Weights) (rows : List Row4) (r' : TalentRow),
      r' ∈ calculate_true_talent w rows →
      r'.park_adj = osub (some r'.woba) r'.wOBA_park_adj) ∧
    (∀ (pf : List ParkRow) (rows : List Row1) (r2 : Row2),
      r2 ∈ calculate_park_adjusted_stats pf rows →
      (∀ p ∈ pf, team_map p.team ≠ some r2.r1.base.team) →
      r2.park_factor = 100) ∧
    (∀ (w : Weights) (batting : List BattingRow) (prot : List ProtRow)
      (pf : List ParkRow) (statcast : List Pitch)
      (pitching : List PitchingRow) (r' : TalentRow),
      r' ∈ build_full_dataset w batting prot pf statcast pitching →
      r'.park_factor = 100 → r'.park_adj = some 0) := by
  refine ⟨?_, ?_, ?_, ?_⟩
  · intro pf rows r2 h hnz
    rw [cpas_wOBA_park_adj h, if_neg hnz]
  · intro w rows r' h
    obtain ⟨r, hr, rfl⟩ := mem_ctt h
    rw [talentRowOf_park_adj, talentRowOf_woba, talentRowOf_wOBA_park_adj]
  · intro pf rows r2 h hnm
    exact cpas_park_factor_default h hnm
  · intro w batting prot pf statcast pitching r' h hpf
    obtain ⟨rows, r4, hr4, rfl, hr2⟩ := build_mem_shape h
    rw [talentRowOf_park_factor] at hpf
    have hpf2 : r4.r3.r2.park_factor = 100 := hpf
    have hadj := cpas_wOBA_park_adj hr2
    rw [hpf2, if_neg (by norm_num)] at hadj
    rw [talentRowOf_park_adj]
    show osub (some r4.r3.r2.r1.base.woba) r4.r3.r2.wOBA_park_adj = some 0
    rw [hadj]
    simp [osub]

/-- Claim C4 witness: a batter on team BOS with a park table holding only
the Angels entry is defaulted to park_factor = 100, and on the sample
estimator run park_adj is observed wOBA minus the park-neutral wOBA. -/
theorem C4_park_adjustment_witness :
    (⟨⟨⟨12, "C", "BOS", 100, 1/4⟩, none⟩, 100, some (1/4)⟩ : Row2).park_factor
      = 100 ∧
    (talentRowOf sampleWeights [sampleRow] sampleRow).park_adj =
      osub (some (talentRowOf sampleWeights [sampleRow] sampleRow).woba)
        (talentRowOf sampleWeights [sampleRow] sampleRow).wOBA_park_adj := by
  constructor
  · have hcomp : calculate_park_adjusted_stats [⟨"Angels", 113⟩]
        [⟨⟨12, "C", "BOS", 100, 1/4⟩, none⟩] =
        [⟨⟨⟨12, "C", "BOS", 100, 1/4⟩, none⟩, 100, some (1/4)⟩] := by
      norm_num [calculate_park_adjusted_stats, ljoin, team_map, team_map_list]
      exact fun hLB => absurd hLB (by decide)
    refine C4_park_adjustment.2.2.1 [⟨"Angels", 113⟩]
      [⟨⟨12, "C", "BOS", 100, 1/4⟩, none⟩] _ (by rw [hcomp]; simp) ?_
    intro p hp
    simp at hp
    subst hp
    decide
  · exact C4_park_adjustment.2.1 sampleWeights [sampleRow] _
      (by simp [calculate_true_talent])

/-- Claim C8: a Statcast frame lacking the `plate_x` column makes the
pitch-quality stage abort with an error naming `plate_x` before any
aggregation result is produced (the unresolved-key conditions, by
contrast, never surface as errors). -/
theorem C8_missing_plate_x_aborts (t : RawStatcast)
    (h : "plate_x" ∉ t.columns) :
    ∃ missing, calculate_pitch_quality_checked t = Except.error missing ∧
      "plate_x" ∈ missing := by
  have hx : "plate_x" ∈ ((["plate_x", "plate_z"] : List String).filter
      fun c => !(t.columns.contains c)) := by
    rw [List.mem_filter]
    refine ⟨by simp, by simpa using h⟩
  have hne : ¬(((["plate_x", "plate_z"] : List String).filter
      fun c => !(t.columns.contains c)).isEmpty = true) := by
    intro habs
    rw [List.isEmpty_iff] at habs
    rw [habs] at hx
    simp at hx
  refine ⟨_, ?_, hx⟩
  unfold calculate_pitch_quality_checked
  rw [if_neg hne]

/-- Claim C8 witness: a frame whose column index lacks `plate_x` yields an
error listing `plate_x`. -/
theorem C8_missing_plate_x_witness :
    ("plate_x" ∉ (⟨["plate_z"], []⟩ : RawStatcast).columns) ∧
    ∃ missing, calculate_pitch_quality_checked ⟨["plate_z"], []⟩ =
      Except.error missing ∧ "plate_x" ∈ missing := by
  exact ⟨by decide, C8_missing_plate_x_aborts ⟨["plate_z"], []⟩ (by decide)⟩

lemma filter_eq_find_toList {α : Type} (p : α → Bool) (l : List α)
    (h : (l.filter p).length ≤ 1) : l.filter p = (l.find? p).toList := by
  induction l with
  | nil => simp
  | cons a t ih =>
    by_cases hp : p a
    · rw [List.filter_cons_of_pos hp] at h ⊢
      rw [List.find?_cons_of_pos _ hp]
      have ht : t.filter p = [] := by
        rw [List.length_cons] at h
        exact List.length_eq_zero.mp (by omega)
      rw [ht]
      rfl
    · rw [List.filter_cons_of_neg hp] at h ⊢
      rw [List.find?_cons_of_neg _ hp]
      exact ih h

lemma ljoin_cons {α β γ : Type} (mk : α → Option β → γ) (m : α → β → Bool)
    (a : α) (t : List α) (right : List β) :
    ljoin mk m (a :: t) right =
      (let ms := right.filter (m a)
       if ms.isEmpty then [mk a none] else ms.map fun b => mk a (some b)) ++
      ljoin mk m t right := by
  simp [ljoin]

lemma ljoin_eq_map {α β γ : Type} (mk : α → Option β → γ) (m : α → β → Bool)
    (left : List α) (right : List β)
    (h : ∀ a, (right.filter (m a)).length ≤ 1) :
    ljoin mk m left right = left.map fun a => mk a (right.find? (m a)) := by
  induction left with
  | nil => rfl
  | cons a t ih =>
    rw [ljoin_cons, ih, List.map_cons]
    have hfe := filter_eq_find_toList (m a) right (h a)
    cases hf : right.find? (m a) with
    | none =>
      rw [hf] at hfe
      simp [hfe]
    | some b =>
      rw [hf] at hfe
      simp [hfe]

lemma nodup_keys_filter_le_one {α : Type} (key : α → ℕ) (l : List α)
    (h : (l.map key).Nodup) (k : ℕ) :
    (l.filter fun x => key x == k).length ≤ 1 := by
  induction l with
  | nil => simp
  | cons a t ih =>
    rw [List.map_cons, List.nodup_cons] at h
    by_cases hk : key a == k
    · have ht : t.filter (fun x => key x == k) = [] := by
        rw [List.filter_eq_nil_iff]
        intro x hx hxk
        apply h.1
        rw [List.mem_map]
        refine ⟨x, hx, ?_⟩
        simp only [beq_iff_eq] at hk hxk
        rw [hxk, hk]
      simp [List.filter_cons, hk, ht]
    · simp only [List.filter_cons, hk, if_false]
      exact ih h.2

lemma cpq_keys_nodup (statcast : List Pitch) :
    ((calculate_pitch_quality_by_batter statcast).map PitchQualRow.batter).Nodup := by
  unfold calculate_pitch_quality_by_batter
  rw [List.map_map]
  have hc : (PitchQualRow.batter ∘ pitchQualRowOf (zonedOf statcast)) = id := by
    funext b
    simp [pitchQualRowOf]
  rw [hc, List.map_id]
  exact List.nodup_dedup _

lemma cpqf_keys_nodup (pitching : List PitchingRow) (statcast : List Pitch) :
    ((calculate_pitcher_quality_faced pitching statcast).map
      PitcherOppRow.batter).Nodup := by
  unfold calculate_pitcher_quality_faced
  rw [List.map_map]
  have hc : (PitcherOppRow.batter ∘
      pitcherOppRowOf (tripleRowsOf pitching statcast)) = id := by
    funext b
    simp [pitcherOppRowOf]
  rw [hc, List.map_id]
  exact List.nodup_dedup _

lemma cpq_batter_from_statcast {statcast : List Pitch} {r : PitchQualRow}
    (h : r ∈ calculate_pitch_quality_by_batter statcast) :
    ∃ p, p ∈ statcast ∧ p.batter = r.batter := by
  obtain ⟨b, hb, rfl⟩ := mem_cpq h
  rw [List.mem_dedup] at hb
  obtain ⟨q, hq, hqb⟩ := List.mem_map.mp hb
  simp only [zonedOf] at hq
  obtain ⟨p, hp, rfl⟩ := List.mem_map.mp hq
  refine ⟨p, (List.mem_filter.mp hp).1, ?_⟩
  simpa [pitchQualRowOf] using hqb

lemma cpqf_batter_from_statcast {pitching : List PitchingRow}
    {statcast : List Pitch} {r : PitcherOppRow}
    (h : r ∈ calculate_pitcher_quality_faced pitching statcast) :
    ∃ p, p ∈ statcast ∧ p.batter = r.batter := by
  unfold calculate_pitcher_quality_faced at h
  obtain ⟨b, hb, hr⟩ := List.mem_map.mp h
  rw [List.mem_dedup] at hb
  obtain ⟨tr, htr, htb⟩ := List.mem_map.mp hb
  unfold tripleRowsOf at htr
  obtain ⟨t, ht, hc⟩ := mem_ljoin htr
  have htb2 : tr.batter = t.1 := by
    rcases hc with hc | ⟨q, _, _, hc⟩ <;> subst hc <;> rfl
  rw [List.mem_dedup] at ht
  obtain ⟨p, hp, hpt⟩ := List.mem_map.mp ht
  refine ⟨p, hp, ?_⟩
  subst hr
  simp only [pitcherOppRowOf]
  rw [← htb, htb2, ← hpt]

/-- Claim C3: with at most one protection row per batter id and at most
one park-factor row per team abbreviation, `build_full_dataset` emits
exactly one output row per batting row (same batter ids in the same
order), and a batter matching nothing in the protection, park, pitch or
pitcher tables still appears, with a null protection score, park factor
100, null pitch-quality and pitcher signals, and neutral park and pitcher
adjustments. -/
theorem C3_one_row_per_batter
    (w : Weights) (batting : List BattingRow) (prot : List ProtRow)
    (pf : List ParkRow) (statcast : List Pitch) (pitching : List PitchingRow)
    (hp : ∀ id : ℕ, (prot.filter fun p => p.batter_id == id).length ≤ 1)
    (hf : ∀ tm : String,
      (pf.filter fun p => team_map p.team == some tm).length ≤ 1) :
    (build_full_dataset w batting prot pf statcast pitching).map
      TalentRow.mlbamid = batting.map BattingRow.mlbamid ∧
    ∀ b ∈ batting,
      (∀ pr ∈ prot, pr.batter_id ≠ b.mlbamid) →
      (∀ p ∈ pf, team_map p.team ≠ some b.team) →
      (∀ s ∈ statcast, s.batter ≠ b.mlbamid) →
      ∃ r', r' ∈ build_full_dataset w batting prot pf statcast pitching ∧
        r'.mlbamid = b.mlbamid ∧ r'.name = b.name ∧
        r'.avg_protection_score = none ∧ r'.park_factor = 100 ∧
        r'.heart_pct = none ∧ r'.avg_pitcher_fip_minus = none ∧
        r'.park_adj = some 0 ∧ r'.pitcher_adj = some 0 := by
  simp only [build_full_dataset, calculate_true_talent,
    merge_protection_scores, calculate_park_adjusted_stats]
  rw [ljoin_eq_map _ _ batting prot fun a => hp a.mlbamid]
  rw [ljoin_eq_map _ _ _ pf fun a : Row1 => hf a.base.team]
  rw [ljoin_eq_map _ _ _ (calculate_pitch_quality_by_batter statcast)
    fun a : Row2 => nodup_keys_filter_le_one PitchQualRow.batter _
      (cpq_keys_nodup statcast) a.r1.base.mlbamid]
  rw [ljoin_eq_map _ _ _ (calculate_pitcher_quality_faced pitching statcast)
    fun a : Row3 => nodup_keys_filter_le_one PitcherOppRow.batter _
      (cpqf_keys_nodup pitching statcast) a.r2.r1.base.mlbamid]
  constructor
  · simp only [List.map_map]
    apply List.map_congr_left
    intro b hb
    simp [Function.comp, talentRowOf_mlbamid, Row4.mlbamid]
  · intro b hb hno1 hno2 hno3
    have hfp : prot.find? (fun p => p.batter_id == b.mlbamid) = none := by
      rw [List.find?_eq_none]
      intro p hp2
      simpa using hno1 p hp2
    have hff : pf.find? (fun p => team_map p.team == some b.team) = none := by
      rw [List.find?_eq_none]
      intro p hp2
      simpa using hno2 p hp2
    have hfq : (calculate_pitch_quality_by_batter statcast).find?
        (fun pq => pq.batter == b.mlbamid) = none := by
      rw [List.find?_eq_none]
      intro x hx
      obtain ⟨p, hps, hpb⟩ := cpq_batter_from_statcast hx
      simp only [beq_iff_eq]
      rw [← hpb]
      exact hno3 p hps
    have hfo : (calculate_pitcher_quality_faced pitching statcast).find?
        (fun po => po.batter == b.mlbamid) = none := by
      rw [List.find?_eq_none]
      intro x hx
      obtain ⟨p, hps, hpb⟩ := cpqf_batter_from_statcast hx
      simp only [beq_iff_eq]
      rw [← hpb]
      exact hno3 p hps
    refine ⟨_, List.mem_map_of_mem _ (List.mem_map_of_mem _
      (List.mem_map_of_mem _ (List.mem_map_of_mem _
        (List.mem_map_of_mem _ hb)))), ?_, ?_, ?_, ?_, ?_, ?_, ?_, ?_⟩
    · rw [talentRowOf_mlbamid]
      simp [Row4.mlbamid]
    · rw [talentRowOf_name]
      simp [Row4.name]
    · rw [talentRowOf_avg_protection_score]
      simp [Row4.avg_protection_score, hfp]
    · rw [talentRowOf_park_factor]
      simp [Row4.park_factor, hff]
    · rw [talentRowOf_heart_pct]
      simp [Row4.heart_pct, hfq]
    · rw [talentRowOf_avg_pitcher_fip_minus]
      simp [Row4.avg_pitcher_fip_minus, hfo]
    · rw [talentRowOf_park_adj]
      simp [Row4.woba, Row4.wOBA_park_adj, hff, osub]
    · rw [talentRowOf_pitcher_adj]
      simp [Row4.avg_pitcher_fip_minus, hfo]

/-- Claim C3 witness: a one-batter batting table with every auxiliary
table empty keeps the batter, whose output row carries all the defaults. -/
theorem C3_one_row_per_batter_witness :
    (build_full_dataset sampleWeights [⟨7, "D", "SEA", 10, 1/4⟩]
      [] [] [] []).map TalentRow.mlbamid = [7] ∧
    ∃ r', r' ∈ build_full_dataset sampleWeights [⟨7, "D", "SEA", 10, 1/4⟩]
        [] [] [] [] ∧
      r'.mlbamid = 7 ∧ r'.name = "D" ∧
      r'.avg_protection_score = none ∧ r'.park_factor = 100 ∧
      r'.heart_pct = none ∧ r'.avg_pitcher_fip_minus = none ∧
      r'.park_adj = some 0 ∧ r'.pitcher_adj = some 0 := by
  have h := C3_one_row_per_batter sampleWeights [⟨7, "D", "SEA", 10, 1/4⟩]
    [] [] [] [] (by intro id; simp) (by intro tm; simp)
  refine ⟨by simpa using h.1, ?_⟩
  simpa using h.2 ⟨7, "D", "SEA", 10, 1/4⟩ (by simp) (by simp) (by simp)
    (by simp)
